import Mathlib

/-!
Shallow embedding of `src/Emitter.js` (class `Emitter`).

Modelling choices:
* JS callback references are modelled as `Nat` identifiers; two records hold
  the same callback exactly when the identifiers are equal (JS `===` on the
  function reference).
* The private field `#events` (a plain JS object used as a string-keyed map)
  is modelled as an insertion-ordered association list
  `List (String × List ListenerRecord)`; `findSeq`, `setSeq`, `delKey` model
  property lookup, property write and the `delete` operator.
* `#maxListeners` is modelled as `Option Nat`: `some m` is the integer `m`,
  `none` is `Infinity`.  The setter only ever stores a non-negative integer
  or `Infinity`, so this type covers every storable value.
* JS numbers passed to the `maxListeners` setter are modelled by `NumArg`:
  an integer, `Infinity`, or anything else (`NaN`, fractional values,
  `-Infinity`), which the validation rejects uniformly.
* `String.prototype.trim` is modelled by `jsTrim`: dropping leading and
  trailing whitespace characters.
* Methods take well-typed inputs (event names are `String`s, listeners are
  callback identifiers); the `typeof` guards of the source that reject
  non-string / non-function inputs are outside the model.
* JS exceptions do not roll state back, so every method returns the
  post-state together with `Except EmitterErr α`:
  `TypeError('Invalid eventName')` is `invalidEventName`,
  `TypeError('Invalid listener')` is `invalidListener`,
  `TypeError('Invalid maxListeners')` is `invalidMaxListeners` and
  `Error('Memory leak detected')` is `memoryLeak`.
* `emit` is asynchronous in the source; here it is a function that also
  returns the invocation trace: one entry `(callback id, arguments, outcome)`
  per listener actually invoked, in dispatch order.  The parameter
  `outcome : Nat → List Arg → CallOutcome` is an oracle giving each
  invocation's behaviour: return normally (`settled`), return a promise
  that later rejects (`rejected` — which `Promise.allSettled` waits for and
  discards), or throw synchronously (`thrown`).  A synchronous throw
  happens inside the `.map` of source line 81, before `Promise.allSettled`
  ever runs: it aborts the dispatch there, skips the remaining listeners
  and the one-shot cleanup, and propagates out of `emit` as a rejection,
  modelled as `.error (.callbackException f)` where `f` is the throwing
  callback.
-/

/-- Model of JS `String.prototype.trim`: remove leading and trailing
whitespace characters. -/
def jsTrim (s : String) : String :=
  ⟨((s.data.dropWhile Char.isWhitespace).reverse.dropWhile Char.isWhitespace).reverse⟩

/-- One entry of an event's listener sequence: the JS object
`{ isOnce, listener }` built by `#addEventListener`. -/
structure ListenerRecord where
  isOnce : Bool
  listener : Nat
deriving DecidableEq, Repr

/-- Payload values forwarded verbatim by `emit` to each callback. -/
abbrev Arg := Nat

/-- The behaviour of one callback invocation during `emit`: it can return
normally (`settled`), return a promise that later rejects (`rejected` —
settled and discarded by `Promise.allSettled`), or throw synchronously
while being called inside the `.map` (`thrown`). -/
inductive CallOutcome where
  | settled
  | rejected
  | thrown
deriving DecidableEq, Repr

/-- The exceptions that can propagate out of the methods of `Emitter`:
the four the class itself throws, plus `callbackException f`, the exception
a listener `f` throws synchronously during `emit`'s dispatch `.map`, which
escapes `emit` uncaught. -/
inductive EmitterErr where
  | invalidEventName
  | invalidListener
  | invalidMaxListeners
  | memoryLeak
  | callbackException (f : Nat)
deriving DecidableEq, Repr

/-- A JS number handed to the `maxListeners` setter: an integer, `Infinity`,
or any other number (`NaN`, a fractional value, `-Infinity`), all of which
fail `Number.isInteger` and the `=== Infinity` comparison alike. -/
inductive NumArg where
  | intV (i : Int)
  | infinity
  | nonIntV
deriving DecidableEq, Repr

/-- The state of an `Emitter` instance: the private fields `#events` and
`#maxListeners`. -/
structure Emitter where
  events : List (String × List ListenerRecord)
  maxListeners : Option Nat
deriving DecidableEq, Repr

/-- Property lookup `events[key]` / the `key in events` test: first binding
of `key` in the association list. -/
def findSeq : List (String × List ListenerRecord) → String → Option (List ListenerRecord)
  | [], _ => none
  | (k, v) :: rest, key => if k = key then some v else findSeq rest key

/-- `events[key]`, defaulting to the empty sequence when the key is absent. -/
def getSeqD (es : List (String × List ListenerRecord)) (key : String) :
    List ListenerRecord :=
  (findSeq es key).getD []

/-- Property write `events[key] = v`: replace the first binding of `key` in
place, or append a new binding when the key is absent. -/
def setSeq : List (String × List ListenerRecord) → String → List ListenerRecord →
    List (String × List ListenerRecord)
  | [], key, v => [(key, v)]
  | (k, w) :: rest, key, v =>
    if k = key then (k, v) :: rest else (k, w) :: setSeq rest key v

/-- The `delete events[key]` operator: drop the first binding of `key`. -/
def delKey : List (String × List ListenerRecord) → String →
    List (String × List ListenerRecord)
  | [], _ => []
  | (k, w) :: rest, key => if k = key then rest else (k, w) :: delKey rest key

/-- The event-name guard used by every method:
`typeof eventName === 'string' && eventName.trim()` — the name must be
non-empty after trimming. -/
def validName (n : String) : Bool :=
  !(jsTrim n).data.isEmpty

/-- `cap < k` on the stored capacity, where `none` is `Infinity`
(`Infinity < k` is false for every integer `k`). -/
def capLt (cap : Option Nat) (k : Nat) : Bool :=
  match cap with
  | none => false
  | some m => decide (m < k)

/-- The validation of the `maxListeners` setter:
`(!Number.isInteger(m) && m !== Infinity) || m < 0` rejects; otherwise the
value to be stored is `some i.toNat` for an integer `i ≥ 0` and `none` for
`Infinity`. -/
def proposedCap : NumArg → Option (Option Nat)
  | .intV i => if i < 0 then none else some (some i.toNat)
  | .infinity => some none
  | .nonIntV => none

namespace Emitter

/-- `set maxListeners (maxListeners = 10)` (source lines 45–61): validate the
argument, throw `Error('Memory leak detected')` when some existing event's
sequence is longer than the proposed capacity, otherwise store it.
`arg = none` models calling the setter with `undefined`, which selects the
default `10`. -/
def setMaxListeners (s : Emitter) (arg : Option NumArg) :
    Emitter × Except EmitterErr Unit :=
  match proposedCap (arg.getD (.intV 10)) with
  | none => (s, .error .invalidMaxListeners)
  | some cap =>
    if s.events.any (fun e => capLt cap e.2.length) then
      (s, .error .memoryLeak)
    else
      ({ s with maxListeners := cap }, .ok ())

/-- `constructor(maxListeners)` (source lines 17–20): start from an empty
event map and run the `maxListeners` setter; a validation failure prevents
the instance from being created.  (The pre-assignment value of
`#maxListeners` is never read, so the placeholder is unobservable.) -/
def mkEmitter (arg : Option NumArg) : Except EmitterErr Emitter :=
  let r := setMaxListeners { events := [], maxListeners := none } arg
  match r.2 with
  | .ok _ => .ok r.1
  | .error e => .error e

/-- `get eventNames` (source lines 25–27): `Object.keys(this.#events)`.
Returned together with the (unchanged) state, like every accessor here, so
that frame properties are statable. -/
def eventNames (s : Emitter) : Emitter × List String :=
  (s, s.events.map (fun e => e.1))

/-- `get maxListeners` (source lines 32–34). -/
def maxListenersGet (s : Emitter) : Emitter × Option Nat :=
  (s, s.maxListeners)

/-- `#addEventListener(eventName, listener, { isPrepend, isOnce })`
(source lines 327–364): validate, trim the name, create the key with an
empty sequence when absent, throw `Error('Memory leak detected')` when the
insertion would exceed the capacity (note: the freshly created empty key is
left behind in that case, exactly as in the source), otherwise `unshift` or
`push` the new record. -/
def addEventListener (s : Emitter) (eventName : String) (listener : Nat)
    (isPrepend : Bool) (isOnce : Bool) : Emitter × Except EmitterErr Unit :=
  if validName eventName = false then
    (s, .error .invalidEventName)
  else
    let key := jsTrim eventName
    let events1 :=
      match findSeq s.events key with
      | none => s.events ++ [(key, [])]
      | some _ => s.events
    let seq := getSeqD events1 key
    if capLt s.maxListeners (seq.length + 1) then
      ({ s with events := events1 }, .error .memoryLeak)
    else
      let seq2 :=
        if isPrepend then ⟨isOnce, listener⟩ :: seq else seq ++ [⟨isOnce, listener⟩]
      ({ s with events := setSeq events1 key seq2 }, .ok ())

/-- `addListener(eventName, listener)` (source lines 106–108). -/
def addListener (s : Emitter) (eventName : String) (listener : Nat) :
    Emitter × Except EmitterErr Unit :=
  addEventListener s eventName listener false false

/-- `on(eventName, listener)` (source lines 191–193): synonym of
`addListener`.  (`on` is a reserved token in this Lean environment, hence
the name `onEvent`.) -/
def onEvent (s : Emitter) (eventName : String) (listener : Nat) :
    Emitter × Except EmitterErr Unit :=
  addListener s eventName listener

/-- `once(eventName, listener)` (source lines 206–210). -/
def once (s : Emitter) (eventName : String) (listener : Nat) :
    Emitter × Except EmitterErr Unit :=
  addEventListener s eventName listener false true

/-- `prependListener(eventName, listener)` (source lines 223–227). -/
def prependListener (s : Emitter) (eventName : String) (listener : Nat) :
    Emitter × Except EmitterErr Unit :=
  addEventListener s eventName listener true false

/-- `prependOnceListener(eventName, listener)` (source lines 240–245). -/
def prependOnceListener (s : Emitter) (eventName : String) (listener : Nat) :
    Emitter × Except EmitterErr Unit :=
  addEventListener s eventName listener true true

/-- `#removeEventListener(eventName, index)` (source lines 366–372):
`splice(index, 1)` and delete the key once the sequence is empty.  Only ever
called with a present key and an in-range index. -/
def removeEventListener (s : Emitter) (eventName : String) (index : Nat) :
    Emitter :=
  let seq2 := (getSeqD s.events eventName).eraseIdx index
  if seq2.length = 0 then
    { s with events := delKey s.events eventName }
  else
    { s with events := setSeq s.events eventName seq2 }

/-- `removeListener(eventName, listener)` (source lines 284–304): remove the
first record whose callback reference matches (`findIndex`), no-op when the
event name is unknown or nothing matches.  The lookup uses the event name
verbatim — no trimming. -/
def removeListener (s : Emitter) (eventName : String) (listener : Nat) :
    Emitter × Except EmitterErr Unit :=
  if validName eventName = false then
    (s, .error .invalidEventName)
  else
    match findSeq s.events eventName with
    | none => (s, .ok ())
    | some seq =>
      match seq.findIdx? (fun r => r.listener == listener) with
      | none => (s, .ok ())
      | some i => (removeEventListener s eventName i, .ok ())

/-- `off(eventName, listener)` (source lines 176–178): synonym of
`removeListener`. -/
def off (s : Emitter) (eventName : String) (listener : Nat) :
    Emitter × Except EmitterErr Unit :=
  removeListener s eventName listener

/-- `removeAllListeners(eventName?)` (source lines 255–272): with no
argument, reset the whole map; with a (validated) name, delete that key if
present. -/
def removeAllListeners (s : Emitter) (eventName : Option String) :
    Emitter × Except EmitterErr Unit :=
  match eventName with
  | none => ({ s with events := [] }, .ok ())
  | some n =>
    if validName n = false then
      (s, .error .invalidEventName)
    else
      match findSeq s.events n with
      | none => (s, .ok ())
      | some _ => ({ s with events := delKey s.events n }, .ok ())

/-- `listenerCount(eventName, listener?)` (source lines 120–143): `0` when
the event name is unknown (looked up verbatim); with a callback, the number
of records holding that reference; without, the full sequence length. -/
def listenerCount (s : Emitter) (eventName : String) (listener : Option Nat) :
    Emitter × Except EmitterErr Nat :=
  if validName eventName = false then
    (s, .error .invalidEventName)
  else
    match findSeq s.events eventName with
    | none => (s, .ok 0)
    | some seq =>
      match listener with
      | some f => (s, .ok (seq.filter (fun r => r.listener == f)).length)
      | none => (s, .ok seq.length)

/-- `listeners(eventName)` (source lines 153–164): the callbacks of the
non-one-shot records, in order. -/
def listeners (s : Emitter) (eventName : String) :
    Emitter × Except EmitterErr (List Nat) :=
  if validName eventName = false then
    (s, .error .invalidEventName)
  else
    match findSeq s.events eventName with
    | none => (s, .ok [])
    | some seq => (s, .ok ((seq.filter (fun r => !r.isOnce)).map (fun r => r.listener)))

/-- `rawListeners(eventName)` (source lines 314–325): all callbacks, in
order. -/
def rawListeners (s : Emitter) (eventName : String) :
    Emitter × Except EmitterErr (List Nat) :=
  if validName eventName = false then
    (s, .error .invalidEventName)
  else
    match findSeq s.events eventName with
    | none => (s, .ok [])
    | some seq => (s, .ok (seq.map (fun r => r.listener)))

/-- The `forEach` cleanup pass of `emit` (source lines 83–87):
`forEach` captures the length before iterating, visits index `k` only while
`k` is still inside the (shrinking) array, and `#removeEventListener`
splices the matched one-shot record out in place — so after a removal the
element shifted into slot `k` is never examined. -/
def onceSweep : List ListenerRecord → Nat → Nat → List ListenerRecord
  | seq, _, 0 => seq
  | seq, k, fuel + 1 =>
    let seq2 :=
      if h : k < seq.length then
        if (seq.get ⟨k, h⟩).isOnce then seq.eraseIdx k else seq
      else seq
    onceSweep seq2 (k + 1) fuel

/-- The dispatch of `emit` (source line 81):
`this.#events[eventName].map(event => event.listener(...args))` calls each
listener synchronously, in sequence order, collecting the returned values.
A listener that throws synchronously aborts the `.map` right there: the
returned trace lists the listeners actually invoked (the thrower last),
and the second component names the thrower, whose exception escapes before
`Promise.allSettled` is ever reached. -/
def mapDispatch (args : List Arg) (outcome : Nat → List Arg → CallOutcome) :
    List ListenerRecord → List (Nat × List Arg × CallOutcome) × Option Nat
  | [] => ([], none)
  | r :: rest =>
    if outcome r.listener args = .thrown then
      ([(r.listener, args, outcome r.listener args)], some r.listener)
    else
      ((r.listener, args, outcome r.listener args) :: (mapDispatch args outcome rest).1,
        (mapDispatch args outcome rest).2)

/-- `emit(eventName, ...args)` (source lines 72–93): validate, return
`false` when the key is absent (verbatim lookup, no trimming); otherwise
run the dispatch `.map` over the sequence.  If some listener throws
synchronously, the `.map` aborts: later listeners are never invoked, the
cleanup `forEach` never runs, and `emit`'s promise rejects with that
listener's exception.  Otherwise `await Promise.allSettled` discards the
per-promise outcomes (rejections included), the one-shot cleanup pass
runs, and the key is deleted when a removal empties the sequence (the
source deletes it the moment the sequence empties mid-sweep; since the
sequence can only shrink, the net effect is the same — and a key that
already held an empty sequence is left in place, because `forEach` over an
empty array never calls `#removeEventListener`).  The result carries the
invocation trace next to the returned boolean or propagated exception. -/
def emit (s : Emitter) (eventName : String) (args : List Arg)
    (outcome : Nat → List Arg → CallOutcome) :
    Emitter × List (Nat × List Arg × CallOutcome) × Except EmitterErr Bool :=
  if validName eventName = false then
    (s, [], .error .invalidEventName)
  else
    match findSeq s.events eventName with
    | none => (s, [], .ok false)
    | some seq =>
      match mapDispatch args outcome seq with
      | (calls, some g) => (s, calls, .error (.callbackException g))
      | (calls, none) =>
        let seq2 := onceSweep seq 0 seq.length
        let events2 :=
          if seq.isEmpty then s.events
          else if seq2.isEmpty then delKey s.events eventName
          else setSeq s.events eventName seq2
        ({ s with events := events2 }, calls, .ok true)

end Emitter

open Emitter

/-! ### Lemmas about the association-list model of the event map -/

theorem findSeq_eq_none_of_not_mem (es : List (String × List ListenerRecord))
    (k : String) (h : ∀ p ∈ es, p.1 ≠ k) : findSeq es k = none := by
  induction es with
  | nil => rfl
  | cons e rest ih =>
    obtain ⟨a, b⟩ := e
    rw [findSeq, if_neg (h (a, b) (List.mem_cons_self _ _))]
    exact ih (fun p hp => h p (List.mem_cons_of_mem _ hp))

theorem findSeq_setSeq_self (es : List (String × List ListenerRecord))
    (k : String) (v : List ListenerRecord) :
    findSeq (setSeq es k v) k = some v := by
  induction es with
  | nil => simp [setSeq, findSeq]
  | cons e rest ih =>
    obtain ⟨a, b⟩ := e
    by_cases h : a = k
    · simp [setSeq, findSeq, h]
    · simp [setSeq, findSeq, h, ih]

theorem findSeq_setSeq_ne (es : List (String × List ListenerRecord))
    (k m : String) (v : List ListenerRecord) (h : m ≠ k) :
    findSeq (setSeq es k v) m = findSeq es m := by
  induction es with
  | nil => simp [setSeq, findSeq, Ne.symm h]
  | cons e rest ih =>
    obtain ⟨a, b⟩ := e
    by_cases hk : a = k
    · have ham : ¬a = m := by rw [hk]; exact Ne.symm h
      simp [setSeq, findSeq, hk, ham, Ne.symm h]
    · by_cases hm : a = m <;> simp [setSeq, findSeq, hk, hm, ih, h, Ne.symm h]

theorem findSeq_delKey_self (es : List (String × List ListenerRecord))
    (k : String) (hnd : (es.map (fun e => e.1)).Nodup) :
    findSeq (delKey es k) k = none := by
  induction es with
  | nil => rfl
  | cons e rest ih =>
    obtain ⟨a, b⟩ := e
    simp only [List.map_cons, List.nodup_cons] at hnd
    by_cases h : a = k
    · subst h
      rw [delKey, if_pos rfl]
      refine findSeq_eq_none_of_not_mem rest a (fun p hp heq => hnd.1 ?_)
      exact heq ▸ List.mem_map_of_mem (fun x => x.1) hp
    · rw [delKey, if_neg h, findSeq, if_neg h]
      exact ih hnd.2

theorem findSeq_delKey_ne (es : List (String × List ListenerRecord))
    (k m : String) (h : m ≠ k) :
    findSeq (delKey es k) m = findSeq es m := by
  induction es with
  | nil => rfl
  | cons e rest ih =>
    obtain ⟨a, b⟩ := e
    by_cases hk : a = k
    · have ham : ¬a = m := by rw [hk]; exact Ne.symm h
      simp [delKey, findSeq, hk, ham, Ne.symm h]
    · by_cases hm : a = m <;> simp [delKey, findSeq, hk, hm, ih, h, Ne.symm h]

theorem findSeq_append_single (es : List (String × List ListenerRecord))
    (k : String) (v : List ListenerRecord) (h : findSeq es k = none) :
    findSeq (es ++ [(k, v)]) k = some v := by
  induction es with
  | nil => simp [findSeq]
  | cons e rest ih =>
    obtain ⟨a, b⟩ := e
    rw [findSeq] at h
    by_cases hk : a = k
    · rw [if_pos hk] at h
      exact absurd h (by simp)
    · rw [if_neg hk] at h
      rw [List.cons_append, findSeq, if_neg hk]
      exact ih h

/-- When no listener throws synchronously, the dispatch `.map` completes:
every record's callback is invoked exactly once, in order, with the
arguments passed verbatim, and no exception escapes. -/
theorem mapDispatch_no_throw (args : List Arg) (oc : Nat → List Arg → CallOutcome)
    (seq : List ListenerRecord) (h : ∀ r ∈ seq, oc r.listener args ≠ .thrown) :
    mapDispatch args oc seq
      = (seq.map (fun r => (r.listener, args, oc r.listener args)), none) := by
  induction seq with
  | nil => rfl
  | cons r rest ih =>
    have hr : ¬oc r.listener args = .thrown := h r (List.mem_cons_self _ _)
    simp [mapDispatch, hr, ih (fun q hq => h q (List.mem_cons_of_mem _ hq))]

/-- When some listener throws synchronously, the dispatch `.map` aborts
with a throwing listener's exception. -/
theorem mapDispatch_throw (args : List Arg) (oc : Nat → List Arg → CallOutcome)
    (seq : List ListenerRecord) (h : ∃ r ∈ seq, oc r.listener args = .thrown) :
    ∃ g, (mapDispatch args oc seq).2 = some g ∧ oc g args = .thrown := by
  induction seq with
  | nil =>
    obtain ⟨r, hr, _⟩ := h
    exact absurd hr (List.not_mem_nil r)
  | cons r rest ih =>
    by_cases hr : oc r.listener args = .thrown
    · exact ⟨r.listener, by simp [mapDispatch, hr], hr⟩
    · obtain ⟨q, hq, hqt⟩ := h
      rcases List.mem_cons.1 hq with heq | hq2
      · subst heq
        exact absurd hqt hr
      · obtain ⟨g, hg1, hg2⟩ := ih ⟨q, hq2, hqt⟩
        exact ⟨g, by simp [mapDispatch, hr, hg1], hg2⟩

/-- A key that `findSeq` misses heads no binding of the list. -/
theorem findSeq_none_not_mem (es : List (String × List ListenerRecord))
    (k : String) (h : findSeq es k = none) : ∀ q ∈ es, q.1 ≠ k := by
  induction es with
  | nil =>
    intro q hq
    exact absurd hq (List.not_mem_nil q)
  | cons e rest ih =>
    obtain ⟨a, b⟩ := e
    rw [findSeq] at h
    by_cases hk : a = k
    · rw [if_pos hk] at h
      exact absurd h (by simp)
    · rw [if_neg hk] at h
      intro q hq
      rcases List.mem_cons.1 hq with heq | hq2
      · subst heq
        exact hk
      · exact ih h q hq2

/-- Overwriting an existing binding leaves the key list unchanged. -/
theorem keys_setSeq_found (es : List (String × List ListenerRecord))
    (k : String) (v w : List ListenerRecord) (h : findSeq es k = some w) :
    (setSeq es k v).map (fun e => e.1) = es.map (fun e => e.1) := by
  induction es with
  | nil => simp [findSeq] at h
  | cons e rest ih =>
    obtain ⟨a, b⟩ := e
    rw [findSeq] at h
    by_cases hk : a = k
    · simp [setSeq, hk]
    · rw [if_neg hk] at h
      simp [setSeq, hk, ih h]

/-- Registration preserves uniqueness of the event-map keys: it either
overwrites an existing binding or appends one fresh key. -/
theorem addEventListener_keys_nodup (s : Emitter) (n : String) (f : Nat) (p o : Bool)
    (h : validName n = true) (hnd : (s.events.map (fun e => e.1)).Nodup) :
    ((addEventListener s n f p o).1.events.map (fun e => e.1)).Nodup := by
  cases hf : findSeq s.events (jsTrim n) with
  | none =>
    have hfresh : ∀ q ∈ s.events, q.1 ≠ jsTrim n :=
      findSeq_none_not_mem s.events (jsTrim n) hf
    have hf1 : findSeq (s.events ++ [(jsTrim n, [])]) (jsTrim n) = some [] :=
      findSeq_append_single _ _ _ hf
    have hnd1 : ((s.events ++ [(jsTrim n, [])]).map
        (fun e : String × List ListenerRecord => e.1)).Nodup := by
      rw [List.map_append, List.nodup_append]
      refine ⟨hnd, by simp, ?_⟩
      intro x hx hx2
      obtain ⟨q, hq, hq1⟩ := List.mem_map.1 hx
      simp only [List.map_cons, List.map_nil, List.mem_singleton] at hx2
      exact hfresh q hq (hq1.trans hx2)
    by_cases hc1 : capLt s.maxListeners 1 = true
    · have hev : (addEventListener s n f p o).1.events = s.events ++ [(jsTrim n, [])] := by
        simp [addEventListener, h, hf, getSeqD, findSeq_append_single _ _ _ hf, hc1]
      rw [hev]
      exact hnd1
    · rw [Bool.not_eq_true] at hc1
      have hev : (addEventListener s n f p o).1.events
          = setSeq (s.events ++ [(jsTrim n, [])]) (jsTrim n) [⟨o, f⟩] := by
        simp [addEventListener, h, hf, getSeqD, findSeq_append_single _ _ _ hf, hc1]
      rw [hev, keys_setSeq_found _ _ _ _ hf1]
      exact hnd1
  | some w =>
    by_cases hc1 : capLt s.maxListeners (w.length + 1) = true
    · have hev : (addEventListener s n f p o).1.events = s.events := by
        simp [addEventListener, h, hf, getSeqD, hc1]
      rw [hev]
      exact hnd
    · rw [Bool.not_eq_true] at hc1
      have hev : (addEventListener s n f p o).1.events
          = setSeq s.events (jsTrim n) (if p then ⟨o, f⟩ :: w else w ++ [⟨o, f⟩]) := by
        simp [addEventListener, h, hf, getSeqD, hc1]
      rw [hev, keys_setSeq_found _ _ _ _ hf]
      exact hnd

/-- `removeListener` on a key whose sequence contains a matching record
succeeds and leaves the event with exactly one record fewer. -/
theorem removeListener_found_count (s : Emitter) (t : String) (f : Nat)
    (seq : List ListenerRecord) (ht : validName t = true)
    (hnd : (s.events.map (fun e => e.1)).Nodup)
    (hfind : findSeq s.events t = some seq)
    (hmem : seq.any (fun r => r.listener == f) = true) :
    (removeListener s t f).2 = .ok () ∧
    (listenerCount (removeListener s t f).1 t none).2 = .ok (seq.length - 1) := by
  have hsome : (seq.findIdx? (fun r => r.listener == f)).isSome = true := by
    rw [List.findIdx?_isSome]
    exact hmem
  obtain ⟨j, hj⟩ := Option.isSome_iff_exists.1 hsome
  have hjlt : j < seq.length := (List.findIdx?_eq_some_iff_findIdx_eq.1 hj).1
  have hg : getSeqD s.events t = seq := by simp [getSeqD, hfind]
  have hlen : (seq.eraseIdx j).length = seq.length - 1 := by
    rw [List.length_eraseIdx]
    simp [hjlt]
  constructor
  · simp [removeListener, ht, hfind, hj]
  · by_cases hz : (seq.eraseIdx j).length = 0
    · have hzz : seq.length - 1 = 0 := by rw [← hlen]; exact hz
      have hkey : findSeq (delKey s.events t) t = none := findSeq_delKey_self s.events t hnd
      simp [removeListener, ht, hfind, hj, removeEventListener, hg, hz, listenerCount,
        hkey, hzz]
    · have hz2 : ¬(seq.length - 1 = 0) := by
        rw [← hlen]
        exact hz
      simp [removeListener, ht, hfind, hj, removeEventListener, hg, hz2, listenerCount,
        findSeq_setSeq_self, hlen]

/-! ### Claim theorems -/

/-- C1 (code bug evidence): with capacity 10, registering two one-shot
listeners for "test" and emitting once leaves the second one-shot record
registered: the `forEach`/`splice` cleanup skips the element shifted into
the removed slot, so adjacent one-shot records are not all removed even
though both callbacks were invoked. -/
theorem emit_leaves_adjacent_once_record :
    mkEmitter none = .ok { events := [], maxListeners := some 10 } ∧
    once ({ events := [], maxListeners := some 10 } : Emitter) "test" 1
      = ({ events := [("test", [⟨true, 1⟩])], maxListeners := some 10 }, .ok ()) ∧
    once ({ events := [("test", [⟨true, 1⟩])], maxListeners := some 10 } : Emitter) "test" 2
      = ({ events := [("test", [⟨true, 1⟩, ⟨true, 2⟩])], maxListeners := some 10 }, .ok ()) ∧
    emit ({ events := [("test", [⟨true, 1⟩, ⟨true, 2⟩])], maxListeners := some 10 } : Emitter)
        "test" [] (fun _ _ => .settled)
      = ({ events := [("test", [⟨true, 2⟩])], maxListeners := some 10 },
          [(1, [], .settled), (2, [], .settled)], .ok true) :=
  ⟨rfl, rfl, rfl, rfl⟩

/-- C3 (code bug evidence): `new Emitter(0)` is accepted, and a registration
on the fresh (unknown) event name "x" throws `Memory leak detected` but
leaves the key "x" behind with an empty sequence — visible through
`eventNames` and a zero `listenerCount`. -/
theorem failed_registration_leaves_empty_key :
    mkEmitter (some (.intV 0)) = .ok { events := [], maxListeners := some 0 } ∧
    addListener ({ events := [], maxListeners := some 0 } : Emitter) "x" 1
      = ({ events := [("x", [])], maxListeners := some 0 }, .error .memoryLeak) ∧
    (eventNames ({ events := [("x", [])], maxListeners := some 0 } : Emitter)).2 = ["x"] ∧
    (listenerCount ({ events := [("x", [])], maxListeners := some 0 } : Emitter) "x" none).2
      = .ok 0 :=
  ⟨rfl, rfl, rfl, rfl⟩

/-- C5 (counterexample): in the reachable state left by a failed capacity-0
registration, the event name "x" has zero registered listeners, yet `emit`
returns `true` (and invokes nothing) because the key is present. -/
theorem emit_true_on_empty_key :
    (addListener ({ events := [], maxListeners := some 0 } : Emitter) "x" 1).1
      = { events := [("x", [])], maxListeners := some 0 } ∧
    (listenerCount ({ events := [("x", [])], maxListeners := some 0 } : Emitter) "x" none).2
      = .ok 0 ∧
    emit ({ events := [("x", [])], maxListeners := some 0 } : Emitter) "x" [3]
        (fun _ _ => .settled)
      = ({ events := [("x", [])], maxListeners := some 0 }, [], .ok true) :=
  ⟨rfl, rfl, rfl⟩

/-- C4 (counterexample): " test " trims to "test", and registering under the
trimmed name succeeds; but `emit` and `listenerCount` called with the
padded form " test " look the name up verbatim and find nothing — the two
names are not treated as the same event in that direction. -/
theorem padded_name_lookup_misses :
    jsTrim " test " = "test" ∧
    validName " test " = true ∧
    addListener ({ events := [], maxListeners := some 10 } : Emitter) "test" 1
      = ({ events := [("test", [⟨false, 1⟩])], maxListeners := some 10 }, .ok ()) ∧
    (emit ({ events := [("test", [⟨false, 1⟩])], maxListeners := some 10 } : Emitter)
        " test " [] (fun _ _ => .settled)).2 = ([], .ok false) ∧
    (listenerCount ({ events := [("test", [⟨false, 1⟩])], maxListeners := some 10 } : Emitter)
        " test " none).2 = .ok 0 :=
  ⟨rfl, rfl, rfl, rfl, rfl⟩

/-- C10: the query operations — `eventNames`, the `maxListeners` getter,
`listenerCount`, `listeners` and `rawListeners` — never mutate the
registry: the state they return is the state they were given, for every
state and every argument. -/
theorem queries_never_mutate (s : Emitter) (n : String) (f : Option Nat) :
    (eventNames s).1 = s ∧ (maxListenersGet s).1 = s ∧
    (listenerCount s n f).1 = s ∧ (listeners s n).1 = s ∧
    (rawListeners s n).1 = s := by
  refine ⟨rfl, rfl, ?_, ?_, ?_⟩ <;>
    · simp only [listenerCount, listeners, rawListeners]
      repeat' split
      all_goals rfl

/-- C2 (code bug evidence): with listeners 1 and 2 registered for "a" and
listener 1 throwing synchronously when invoked, `emit` invokes listener 1
only — listener 2 is skipped — and rejects with listener 1's exception
instead of resolving `true`: the dispatch `.map` of source line 81 calls
each listener synchronously before `Promise.allSettled` can capture
anything, so a synchronous throw escapes `emit` and aborts the fan-out,
contrary to the spec's settle-all, fail-none contract.  By contrast a
rejected promise is swallowed exactly as the spec says: same registry,
both listeners rejecting, and `emit` resolves `true` having invoked both. -/
theorem sync_throw_escapes_emit :
    emit ({ events := [("a", [⟨false, 1⟩, ⟨false, 2⟩])], maxListeners := some 10 } : Emitter)
        "a" [7] (fun g _ => if g = 1 then .thrown else .settled)
      = ({ events := [("a", [⟨false, 1⟩, ⟨false, 2⟩])], maxListeners := some 10 },
         [(1, [7], .thrown)], .error (.callbackException 1)) ∧
    emit ({ events := [("a", [⟨false, 1⟩, ⟨false, 2⟩])], maxListeners := some 10 } : Emitter)
        "a" [7] (fun _ _ => .rejected)
      = ({ events := [("a", [⟨false, 1⟩, ⟨false, 2⟩])], maxListeners := some 10 },
         [(1, [7], .rejected), (2, [7], .rejected)], .ok true) :=
  ⟨rfl, rfl⟩

/-- C5 (amended): `emit` returns `false` (invoking nothing, state
untouched) exactly when the event name is absent as a key of the event
map.  When the key is present and no callback throws synchronously, `emit`
returns `true` and the trace invokes every record's callback exactly once,
in order, with the emit arguments passed verbatim (promise rejections
included — they are settled and discarded).  When some callback throws
synchronously, `emit` does not resolve: the state is left untouched and a
throwing callback's exception propagates (the C2 bug). -/
theorem emit_result_matches_key_presence (s : Emitter) (n : String) (args : List Arg)
    (oc : Nat → List Arg → CallOutcome) (h : validName n = true) :
    (findSeq s.events n = none → emit s n args oc = (s, [], .ok false)) ∧
    (∀ seq, findSeq s.events n = some seq →
      ((∀ r ∈ seq, oc r.listener args ≠ .thrown) →
        (emit s n args oc).2
          = (seq.map (fun r => (r.listener, args, oc r.listener args)), .ok true)) ∧
      ((∃ r ∈ seq, oc r.listener args = .thrown) →
        (emit s n args oc).1 = s ∧
        ∃ g, (emit s n args oc).2.2 = .error (.callbackException g) ∧
          oc g args = .thrown)) := by
  refine ⟨?_, ?_⟩
  · intro hk
    simp [emit, h, hk]
  · intro seq hk
    constructor
    · intro hq
      simp [emit, h, hk, mapDispatch_no_throw args oc seq hq]
    · intro hex
      obtain ⟨g, hg1, hg2⟩ := mapDispatch_throw args oc seq hex
      rcases hmd : mapDispatch args oc seq with ⟨calls, th⟩
      rw [hmd] at hg1
      have hth : th = some g := hg1
      subst hth
      refine ⟨?_, g, ?_, hg2⟩
      · simp [emit, h, hk, hmd]
      · simp [emit, h, hk, hmd]

/-- C5 witness: emitting "b" on a registry that only knows "a" returns
`false` and invokes nothing. -/
theorem emit_result_matches_key_presence_witness :
    emit ({ events := [("a", [⟨false, 5⟩])], maxListeners := some 10 } : Emitter) "b" [2]
        (fun _ _ => .settled)
      = ({ events := [("a", [⟨false, 5⟩])], maxListeners := some 10 }, [], .ok false) :=
  (emit_result_matches_key_presence _ "b" [2] (fun _ _ => .settled) rfl).1 rfl

/-- Helper for C9: with stored capacity `0`, `#addEventListener` always
throws `Memory leak detected`, whatever the flags, because
`length + 1 > 0` holds for every sequence. -/
theorem addEventListener_capacity_zero (s : Emitter) (n : String) (f : Nat)
    (p o : Bool) (hcap : s.maxListeners = some 0) (h : validName n = true) :
    (addEventListener s n f p o).2 = .error .memoryLeak := by
  cases hfind : findSeq s.events (jsTrim n) with
  | none =>
    simp only [addEventListener, h, hfind]
    rw [getSeqD, findSeq_append_single _ _ _ hfind]
    simp [hcap, capLt]
  | some seq =>
    simp only [addEventListener, h, hfind]
    rw [getSeqD, hfind]
    simp [hcap, capLt]

/-- C9: with stored capacity `0` (a value both the constructor and the
setter accept), every registration variant with a valid event name throws
`Memory leak detected`: capacity `0` admits no listener at all, it does not
mean "unlimited". -/
theorem capacity_zero_blocks_registration (s : Emitter) (n : String) (f : Nat)
    (hcap : s.maxListeners = some 0) (h : validName n = true) :
    (addListener s n f).2 = .error .memoryLeak ∧
    (onEvent s n f).2 = .error .memoryLeak ∧
    (once s n f).2 = .error .memoryLeak ∧
    (prependListener s n f).2 = .error .memoryLeak ∧
    (prependOnceListener s n f).2 = .error .memoryLeak ∧
    mkEmitter (some (.intV 0)) = .ok { events := [], maxListeners := some 0 } :=
  ⟨addEventListener_capacity_zero s n f false false hcap h,
   addEventListener_capacity_zero s n f false false hcap h,
   addEventListener_capacity_zero s n f false true hcap h,
   addEventListener_capacity_zero s n f true false hcap h,
   addEventListener_capacity_zero s n f true true hcap h,
   rfl⟩

/-- C9 witness: on a fresh capacity-0 registry, registering "e" fails with
`Memory leak detected` for all five variants. -/
theorem capacity_zero_blocks_registration_witness :
    (addListener ({ events := [], maxListeners := some 0 } : Emitter) "e" 0).2
        = .error .memoryLeak ∧
    (onEvent ({ events := [], maxListeners := some 0 } : Emitter) "e" 0).2
        = .error .memoryLeak ∧
    (once ({ events := [], maxListeners := some 0 } : Emitter) "e" 0).2
        = .error .memoryLeak ∧
    (prependListener ({ events := [], maxListeners := some 0 } : Emitter) "e" 0).2
        = .error .memoryLeak ∧
    (prependOnceListener ({ events := [], maxListeners := some 0 } : Emitter) "e" 0).2
        = .error .memoryLeak ∧
    mkEmitter (some (.intV 0)) = .ok { events := [], maxListeners := some 0 } :=
  capacity_zero_blocks_registration _ "e" 0 rfl rfl

/-- Lazily creating the key with an empty sequence does not change what
`events[key]` denotes (absent keys already read as the empty sequence). -/
theorem getSeqD_create (es : List (String × List ListenerRecord)) (k : String) :
    getSeqD (match findSeq es k with
             | none => es ++ [(k, [])]
             | some _ => es) k = getSeqD es k := by
  cases hf : findSeq es k with
  | none => simp [getSeqD, findSeq_append_single _ _ _ hf, hf]
  | some v => rfl

/-- `#addEventListener` succeeds exactly when the insertion respects the
capacity check `length + 1 > maxListeners`. -/
theorem addEventListener_ok_iff (s : Emitter) (n : String) (f : Nat) (p o : Bool)
    (h : validName n = true) :
    (addEventListener s n f p o).2 = .ok ()
      ↔ capLt s.maxListeners ((getSeqD s.events (jsTrim n)).length + 1) = false := by
  have h1 := getSeqD_create s.events (jsTrim n)
  by_cases hc : capLt s.maxListeners ((getSeqD s.events (jsTrim n)).length + 1) = true
  · cases hf : findSeq s.events (jsTrim n) with
    | none =>
      simp only [hf] at h1
      simp [addEventListener, h, hf, h1, hc]
    | some v =>
      simp only [hf] at h1
      simp [addEventListener, h, hf, h1, hc]
  · rw [Bool.not_eq_true] at hc
    cases hf : findSeq s.events (jsTrim n) with
    | none =>
      simp only [hf] at h1
      simp [addEventListener, h, hf, h1, hc]
    | some v =>
      simp only [hf] at h1
      simp [addEventListener, h, hf, h1, hc]

/-- A failing `#addEventListener` throws `Memory leak detected` and leaves
the sequence read through `events[trimmedName]` unchanged (the freshly
created key, if any, holds the empty sequence that an absent key already
denoted). -/
theorem addEventListener_err_state (s : Emitter) (n : String) (f : Nat) (p o : Bool)
    (h : validName n = true)
    (he : (addEventListener s n f p o).2 ≠ .ok ()) :
    (addEventListener s n f p o).2 = .error .memoryLeak ∧
    getSeqD (addEventListener s n f p o).1.events (jsTrim n)
      = getSeqD s.events (jsTrim n) := by
  have hc : capLt s.maxListeners ((getSeqD s.events (jsTrim n)).length + 1) = true := by
    by_contra hcf
    rw [Bool.not_eq_true] at hcf
    exact he ((addEventListener_ok_iff s n f p o h).2 hcf)
  cases hf : findSeq s.events (jsTrim n) with
  | none =>
    have hg : getSeqD s.events (jsTrim n) = [] := by simp [getSeqD, hf]
    have hc1 : capLt s.maxListeners 1 = true := by simpa [hg] using hc
    simp [addEventListener, h, hf, hc1, getSeqD, findSeq_append_single _ _ _ hf]
  | some v =>
    have hg : getSeqD s.events (jsTrim n) = v := by simp [getSeqD, hf]
    have hc1 : capLt s.maxListeners (v.length + 1) = true := by simpa [hg] using hc
    simp [addEventListener, h, hf, hc1, getSeqD]

/-- A successful `#addEventListener` stores, under the trimmed name, the old
sequence with the new record consed (prepend) or appended (push). -/
theorem addEventListener_ok_state (s : Emitter) (n : String) (f : Nat) (p o : Bool)
    (h : validName n = true)
    (hok : (addEventListener s n f p o).2 = .ok ()) :
    findSeq (addEventListener s n f p o).1.events (jsTrim n)
      = some (if p then ⟨o, f⟩ :: getSeqD s.events (jsTrim n)
              else getSeqD s.events (jsTrim n) ++ [⟨o, f⟩]) := by
  have hc : capLt s.maxListeners ((getSeqD s.events (jsTrim n)).length + 1) = false :=
    (addEventListener_ok_iff s n f p o h).1 hok
  cases hf : findSeq s.events (jsTrim n) with
  | none =>
    have hg : getSeqD s.events (jsTrim n) = [] := by simp [getSeqD, hf]
    have hc1 : capLt s.maxListeners 1 = false := by simpa [hg] using hc
    simp [addEventListener, h, hf, hc1, getSeqD, findSeq_append_single _ _ _ hf,
      findSeq_setSeq_self]
  | some v =>
    have hg : getSeqD s.events (jsTrim n) = v := by simp [getSeqD, hf]
    have hc1 : capLt s.maxListeners (v.length + 1) = false := by simpa [hg] using hc
    simp [addEventListener, h, hf, hc1, getSeqD, findSeq_setSeq_self]

/-- C4 (amended): registration — and only registration — trims the event
name.  After a successful registration with a (possibly padded) name `n`,
the trimmed form reaches the listeners through every lookup the claim
names: `listenerCount` grows by one, `rawListeners` shows the new record
in position, `emit` on the trimmed form fires (`true`, absent synchronous
throws), and `removeListener` on the trimmed form finds and removes the
registered callback.  The vice-versa direction fails, because every lookup
operation consults the event map at its argument string verbatim:
`listenerCount`, `rawListeners` and `listeners` report exactly the
sequence stored under the verbatim key, `emit` returns `false` exactly
when the verbatim key is absent, and `removeListener` /
`removeAllListeners` are no-ops on an absent verbatim key — so a padded
name never reaches listeners stored under its trimmed form. -/
theorem trim_only_on_registration (s : Emitter) (n m : String) (f f2 : Nat)
    (p o : Bool) (args : List Arg) (oc : Nat → List Arg → CallOutcome)
    (hn : validName n = true) (hnt : validName (jsTrim n) = true)
    (hm : validName m = true)
    (hnd : (s.events.map (fun e => e.1)).Nodup)
    (hok : (addEventListener s n f p o).2 = .ok ()) :
    (listenerCount (addEventListener s n f p o).1 (jsTrim n) none).2
        = .ok ((getSeqD s.events (jsTrim n)).length + 1) ∧
    (rawListeners (addEventListener s n f p o).1 (jsTrim n)).2
        = .ok ((if p then (⟨o, f⟩ : ListenerRecord) :: getSeqD s.events (jsTrim n)
                else getSeqD s.events (jsTrim n) ++ [⟨o, f⟩]).map (fun r => r.listener)) ∧
    ((∀ r ∈ (if p then (⟨o, f⟩ : ListenerRecord) :: getSeqD s.events (jsTrim n)
              else getSeqD s.events (jsTrim n) ++ [⟨o, f⟩]),
        oc r.listener args ≠ .thrown) →
      (emit (addEventListener s n f p o).1 (jsTrim n) args oc).2.2 = .ok true) ∧
    ((removeListener (addEventListener s n f p o).1 (jsTrim n) f).2 = .ok () ∧
      (listenerCount (removeListener (addEventListener s n f p o).1 (jsTrim n) f).1
          (jsTrim n) none).2 = .ok (getSeqD s.events (jsTrim n)).length) ∧
    (listenerCount s m none).2 = .ok (getSeqD s.events m).length ∧
    (rawListeners s m).2 = .ok ((getSeqD s.events m).map (fun r => r.listener)) ∧
    (listeners s m).2
        = .ok (((getSeqD s.events m).filter (fun r => !r.isOnce)).map (fun r => r.listener)) ∧
    ((emit s m args oc).2.2 = .ok false ↔ findSeq s.events m = none) ∧
    (findSeq s.events m = none →
      (removeListener s m f2).1 = s ∧ (removeAllListeners s (some m)).1 = s) := by
  have hfind := addEventListener_ok_state s n f p o hn hok
  have hnd2 := addEventListener_keys_nodup s n f p o hn hnd
  refine ⟨?_, ?_, ?_, ?_, ?_, ?_, ?_, ?_, ?_⟩
  · by_cases hp : p = true
    · subst hp
      simp [listenerCount, hnt, hfind]
    · rw [Bool.not_eq_true] at hp
      subst hp
      simp [listenerCount, hnt, hfind]
  · simp [rawListeners, hnt, hfind]
  · intro hq
    simp [emit, hnt, hfind, mapDispatch_no_throw args oc _ hq]
  · have hmem : (if p then (⟨o, f⟩ : ListenerRecord) :: getSeqD s.events (jsTrim n)
        else getSeqD s.events (jsTrim n) ++ [⟨o, f⟩]).any (fun r => r.listener == f)
          = true := by
      by_cases hp : p = true
      · subst hp
        simp
      · rw [Bool.not_eq_true] at hp
        subst hp
        simp
    have hrlc := removeListener_found_count (addEventListener s n f p o).1 (jsTrim n) f _
      hnt hnd2 hfind hmem
    refine ⟨hrlc.1, ?_⟩
    rw [hrlc.2]
    by_cases hp : p = true
    · subst hp
      simp
    · rw [Bool.not_eq_true] at hp
      subst hp
      simp
  · cases hfm : findSeq s.events m with
    | none => simp [listenerCount, hm, hfm, getSeqD]
    | some w => simp [listenerCount, hm, hfm, getSeqD]
  · cases hfm : findSeq s.events m with
    | none => simp [rawListeners, hm, hfm, getSeqD]
    | some w => simp [rawListeners, hm, hfm, getSeqD]
  · cases hfm : findSeq s.events m with
    | none => simp [listeners, hm, hfm, getSeqD]
    | some w => simp [listeners, hm, hfm, getSeqD]
  · cases hfm : findSeq s.events m with
    | none => simp [emit, hm, hfm]
    | some w =>
      rcases hmd : mapDispatch args oc w with ⟨calls, th⟩
      cases th with
      | none => simp [emit, hm, hfm, hmd]
      | some g => simp [emit, hm, hfm, hmd]
  · intro hfm
    exact ⟨by simp [removeListener, hm, hfm], by simp [removeAllListeners, hm, hfm]⟩

/-- C4 witness: registering " w " (padded) on a fresh registry is found by
`listenerCount` under the trimmed name "w" with count 1. -/
theorem trim_only_on_registration_witness :
    (listenerCount (addEventListener ({ events := [], maxListeners := some 10 } : Emitter)
        " w " 4 false false).1 (jsTrim " w ") none).2 = .ok 1 :=
  (trim_only_on_registration ({ events := [], maxListeners := some 10 } : Emitter)
    " w " "w" 4 5 false false [] (fun _ _ => .settled) rfl rfl rfl (by simp) rfl).1

/-- C6: a registration variant succeeds exactly when the new per-event
count `n + 1` does not exceed the capacity (an unbounded capacity always
admits it); a failing registration throws `Memory leak detected` and leaves
the event's listener sequence — hence its count — unchanged. -/
theorem registration_capacity_check (s : Emitter) (n : String) (f : Nat) (p o : Bool)
    (h : validName n = true) :
    ((addEventListener s n f p o).2 = .ok ()
      ↔ ∀ mm, s.maxListeners = some mm → (getSeqD s.events (jsTrim n)).length + 1 ≤ mm) ∧
    ((addEventListener s n f p o).2 ≠ .ok () →
      (addEventListener s n f p o).2 = .error .memoryLeak ∧
      getSeqD (addEventListener s n f p o).1.events (jsTrim n)
        = getSeqD s.events (jsTrim n)) := by
  refine ⟨?_, addEventListener_err_state s n f p o h⟩
  rw [addEventListener_ok_iff s n f p o h]
  cases hml : s.maxListeners with
  | none => simp [capLt]
  | some mm => simp [capLt, Nat.not_lt]

/-- C6 witness: with capacity 2 and two records already registered for "t"
(the same callback twice — duplicates count individually), a third
registration fails with `Memory leak detected` and the count stays 2. -/
theorem registration_capacity_check_witness :
    (addEventListener ({ events := [("t", [⟨false, 1⟩, ⟨false, 1⟩])], maxListeners := some 2 } : Emitter) "t" 1 false false).2 = .error .memoryLeak ∧
    getSeqD (addEventListener ({ events := [("t", [⟨false, 1⟩, ⟨false, 1⟩])], maxListeners := some 2 } : Emitter) "t" 1 false false).1.events (jsTrim "t")
      = getSeqD [("t", [⟨false, 1⟩, ⟨false, 1⟩])] (jsTrim "t") :=
  (registration_capacity_check _ "t" 1 false false rfl).2
    (fun hcontra => Except.noConfusion hcontra)

/-- C7: the `maxListeners` setter rejects anything that is not a
non-negative integer and not `Infinity` with `Invalid maxListeners`, leaving
the state untouched; on a valid value it throws `Memory leak detected` —
again leaving capacity and event map untouched — when some existing event's
sequence is longer than the proposed capacity, and otherwise replaces the
stored capacity with the new value, leaving the event map unchanged. -/
theorem set_max_listeners_contract (s : Emitter) (arg : NumArg) :
    (proposedCap arg = none →
      setMaxListeners s (some arg) = (s, .error .invalidMaxListeners)) ∧
    (∀ i : Int, arg = .intV i → i < 0 → proposedCap arg = none) ∧
    (arg = .nonIntV → proposedCap arg = none) ∧
    (∀ cap, proposedCap arg = some cap →
      ((∃ e ∈ s.events, capLt cap e.2.length = true) →
        setMaxListeners s (some arg) = (s, .error .memoryLeak)) ∧
      ((∀ e ∈ s.events, capLt cap e.2.length = false) →
        setMaxListeners s (some arg) = ({ s with maxListeners := cap }, .ok ()))) := by
  refine ⟨?_, ?_, ?_, ?_⟩
  · intro hp
    simp [setMaxListeners, hp]
  · intro i hi hneg
    subst hi
    simp [proposedCap, hneg]
  · intro hi
    subst hi
    rfl
  · intro cap hp
    constructor
    · rintro ⟨e, he, hcap⟩
      have hany : s.events.any (fun e => capLt cap e.2.length) = true :=
        List.any_eq_true.2 ⟨e, he, hcap⟩
      simp [setMaxListeners, hp, hany]
    · intro hall
      have hany : s.events.any (fun e => capLt cap e.2.length) = false :=
        List.any_eq_false.2 (fun e he => by simp [hall e he])
      simp [setMaxListeners, hp, hany]

/-- C7 witness: lowering capacity to 1 while event "a" holds 2 listeners
throws `Memory leak detected` and leaves the registry — capacity included —
unchanged. -/
theorem set_max_listeners_contract_witness :
    proposedCap (.intV 1) = some (some 1) ∧
    setMaxListeners ({ events := [("a", [⟨false, 1⟩, ⟨false, 2⟩])], maxListeners := some 10 } : Emitter) (some (.intV 1))
      = ({ events := [("a", [⟨false, 1⟩, ⟨false, 2⟩])], maxListeners := some 10 },
          .error .memoryLeak) :=
  ⟨rfl, ((set_max_listeners_contract _ (.intV 1)).2.2.2 (some 1) rfl).1
    ⟨("a", [⟨false, 1⟩, ⟨false, 2⟩]), List.mem_cons_self _ _, rfl⟩⟩

/-- C8: `removeListener` never throws on a valid name; it is a no-op when
the event name is unknown or no record holds the given callback; and when
the sequence splits as `pre ++ r :: post` with `r` the first match, exactly
`r` is removed — later matches survive, order is preserved — with the key
deleted when that removal empties the sequence, and every other key
untouched.  (The `Nodup` hypothesis says the association list has unique
keys, as every JS object does.) -/
theorem remove_listener_contract (s : Emitter) (n : String) (f : Nat)
    (h : validName n = true) (hnd : (s.events.map (fun e => e.1)).Nodup) :
    (removeListener s n f).2 = .ok () ∧
    (findSeq s.events n = none → (removeListener s n f).1 = s) ∧
    (∀ seq, findSeq s.events n = some seq → (∀ r ∈ seq, r.listener ≠ f) →
      (removeListener s n f).1 = s) ∧
    (∀ pre r post, findSeq s.events n = some (pre ++ r :: post) →
      (∀ q ∈ pre, q.listener ≠ f) → r.listener = f →
      findSeq (removeListener s n f).1.events n
          = (if pre ++ post = [] then none else some (pre ++ post)) ∧
      (∀ m, m ≠ n → findSeq (removeListener s n f).1.events m = findSeq s.events m)) := by
  refine ⟨?_, ?_, ?_, ?_⟩
  · cases hf : findSeq s.events n with
    | none => simp [removeListener, h, hf]
    | some seq =>
      cases hi : seq.findIdx? (fun r => r.listener == f) with
      | none => simp [removeListener, h, hf, hi]
      | some i => simp [removeListener, h, hf, hi]
  · intro hf
    simp [removeListener, h, hf]
  · intro seq hf hno
    have hi : seq.findIdx? (fun r => r.listener == f) = none :=
      List.findIdx?_eq_none_iff.2 (fun x hx => beq_eq_false_iff_ne.2 (hno x hx))
    simp [removeListener, h, hf, hi]
  · intro pre r post hf hclean hr
    have hpre : pre.findIdx? (fun q => q.listener == f) = none :=
      List.findIdx?_eq_none_iff.2 (fun q hq => beq_eq_false_iff_ne.2 (hclean q hq))
    have hr1 : (r.listener == f) = true := beq_iff_eq.2 hr
    have hi : (pre ++ r :: post).findIdx? (fun q => q.listener == f) = some pre.length := by
      rw [List.findIdx?_append, hpre]
      simp [List.findIdx?_cons, hr1]
    have hseq : getSeqD s.events n = pre ++ r :: post := by simp [getSeqD, hf]
    have herase : (pre ++ r :: post).eraseIdx pre.length = pre ++ post := by
      rw [List.eraseIdx_append_of_length_le (Nat.le_refl _)]
      simp
    constructor
    · by_cases hemp : pre ++ post = []
      · simp [removeListener, h, hf, hi, removeEventListener, hseq, herase, hemp,
          findSeq_delKey_self s.events n hnd]
      · have hemp2 : ¬(pre = [] ∧ post = []) := by
          simpa [List.append_eq_nil] using hemp
        simp [removeListener, h, hf, hi, removeEventListener, hseq, herase, hemp2,
          findSeq_setSeq_self]
    · intro m hm
      by_cases hemp : pre ++ post = []
      · simp [removeListener, h, hf, hi, removeEventListener, hseq, herase, hemp,
          findSeq_delKey_ne s.events n m hm]
      · have hemp2 : ¬(pre = [] ∧ post = []) := by
          simpa [List.append_eq_nil] using hemp
        simp [removeListener, h, hf, hi, removeEventListener, hseq, herase, hemp2,
          findSeq_setSeq_ne s.events n m _ hm]

/-- C8 witness: with records `[9, 7, 9]` under "a", removing callback `9`
deletes exactly the first `9`; the later duplicate and the `7` remain in
order. -/
theorem remove_listener_contract_witness :
    findSeq (removeListener ({ events := [("a", [⟨false, 9⟩, ⟨false, 7⟩, ⟨false, 9⟩])], maxListeners := some 10 } : Emitter) "a" 9).1.events "a"
      = some [⟨false, 7⟩, ⟨false, 9⟩] :=
  ((remove_listener_contract ({ events := [("a", [⟨false, 9⟩, ⟨false, 7⟩, ⟨false, 9⟩])], maxListeners := some 10 } : Emitter) "a" 9 rfl (by simp)).2.2.2 [] ⟨false, 9⟩
    [⟨false, 7⟩, ⟨false, 9⟩] rfl (fun q hq => absurd hq (List.not_mem_nil q)) rfl).1
